import Mathlib

/-!
Verification development for the `hetznerdns` CLI (Go).

The definitions below are a shallow embedding of the repository's API
client (`pkg/api`), its zone resolver and record commands
(`cmd/hetznerdns/record_cmd.go`), and the configuration loader
(`pkg/config`).  Pure logic is translated directly; the HTTP layer is
modelled by passing the provider's response (status code, raw body, and
the body's JSON parse when it is valid JSON) as an explicit value, and
request construction is modelled as a pure function producing the
request that the Go code would send.
-/

namespace HetznerDNS

/-- JSON values as decoded by Go's `encoding/json` into `interface{}`:
numbers decode to `float64` (modelled as rationals), objects decode to
`map[string]interface{}` (modelled as association lists with unique keys,
looked up by key). -/
inductive Json where
  | null
  | bool (b : Bool)
  | num (q : ℚ)
  | str (s : String)
  | arr (elems : List Json)
  | obj (fields : List (String × Json))

/-- Go type assertion `v.(string)` on a decoded JSON value. -/
def Json.asStr : Json → Option String
  | .str s => some s
  | _ => none

/-- Go type assertion `v.(float64)` on a decoded JSON value. -/
def Json.asNum : Json → Option ℚ
  | .num q => some q
  | _ => none

/-- Go type assertion `v.([]interface\x7b\x7d)` on a decoded JSON value. -/
def Json.asArr : Json → Option (List Json)
  | .arr elems => some elems
  | _ => none

/-- Go type assertion `v.(map[string]interface\x7b\x7d)` on a decoded JSON value. -/
def Json.asObj : Json → Option (List (String × Json))
  | .obj fields => some fields
  | _ => none

/-- Go map indexing `m["k"]`: an absent key yields the nil interface,
modelled as `none`. -/
def lookupField (fields : List (String × Json)) (k : String) : Option Json :=
  List.lookup k fields

/-- Go conversion `int(f)` applied to a `float64`: truncation toward zero.
JSON numbers are modelled as rationals, for which truncation toward zero is
`q.num.tdiv q.den`. -/
def floatToInt (q : ℚ) : Int :=
  q.num.tdiv q.den

/-- `Zone` struct from `pkg/api` (`id`, `name`, `ttl`, `records_count`);
defaults are the Go zero values. -/
structure Zone where
  ID : String := ""
  Name : String := ""
  TTL : Int := 0
  RecordsCount : Int := 0
  deriving DecidableEq

/-- `Record` struct from `pkg/api`.  The Go field `Type` is spelled
`Type'` because `Type` is reserved in Lean.  JSON tags: `id,omitempty`,
`type`, `name`, `value`, `ttl,omitempty`, `zone_id`, `created,omitempty`,
`modified,omitempty`.  Defaults are the Go zero values. -/
structure Record where
  ID : String := ""
  Type' : String := ""
  Name : String := ""
  Value : String := ""
  TTL : Int := 0
  ZoneID : String := ""
  Created : String := ""
  Modified : String := ""
  deriving DecidableEq

/-- Errors surfaced by the client, classified as in the source's
`fmt.Errorf` calls: API errors carry the raw response body and status
code, decode errors carry the format message, and `notFound` is the zone
resolver's failure. -/
inductive ClientError where
  | apiError (body : String) (status : Nat)
  | decodeError (msg : String)
  | notFound (msg : String)
  deriving DecidableEq

/-- A provider HTTP response: status code, raw body (as read by
`io.ReadAll`), and the JSON parse of the body (`none` when the body is
not valid JSON, in which case `json.Decode`/`json.Unmarshal` fails). -/
structure HttpResponse where
  statusCode : Nat
  rawBody : String := ""
  jsonBody : Option Json := none

/-- An HTTP request as built by the client before sending. -/
structure HttpRequest where
  method : String
  url : String
  body : Option Json := none

def baseURL : String := "https://dns.hetzner.com/api/v1"

/-- Per-field extraction `if v, ok := m[k].(string); ok ...` starting from
the zero value: a missing key or a non-string value leaves the field `""`. -/
def strField (m : List (String × Json)) (k : String) : String :=
  ((lookupField m k).bind Json.asStr).getD ""

/-- Per-field extraction `if v, ok := m[k].(float64); ok ... = int(v)`
starting from the zero value: a missing key or a non-number value leaves
the field `0`; a number is truncated toward zero. -/
def numField (m : List (String × Json)) (k : String) : Int :=
  (((lookupField m k).bind Json.asNum).map floatToInt).getD 0

/-- Loop body of `GetZones` for one element of the `zones` array that is
an object: build a `Zone` from the fields that are present with the
expected type. -/
def zoneOfFields (m : List (String × Json)) : Zone :=
  { ID := strField m "id"
    Name := strField m "name"
    TTL := numField m "ttl"
    RecordsCount := numField m "records_count" }

/-- Loop body of `GetZones`: an element that is not a JSON object is
skipped (`continue`). -/
def zoneOfJson : Json → Option Zone
  | .obj m => some (zoneOfFields m)
  | _ => none

/-- Per-element extraction shared by `GetRecords`, `CreateRecord` and
`UpdateRecord`: builds a `Record` from the fields `id`, `type`, `name`,
`value`, `ttl`, `zone_id` that are present with the expected type. -/
def recordOfFields (m : List (String × Json)) : Record :=
  { ID := strField m "id"
    Type' := strField m "type"
    Name := strField m "name"
    Value := strField m "value"
    TTL := numField m "ttl"
    ZoneID := strField m "zone_id" }

/-- Loop body of `GetRecords`: an element that is not a JSON object is
skipped (`continue`). -/
def recordOfJson : Json → Option Record
  | .obj m => some (recordOfFields m)
  | _ => none

/-- Decode phase of `GetZones` after a 200 response: decode the body into
`map[string]interface\x7b\x7d` (a non-object top level fails the decode; a
top-level `null` decodes to a nil map), require `zones` to be present and
an array, then extract each object element leniently. -/
def parseZonesDoc : Json → Except ClientError (List Zone)
  | .obj result =>
    match (lookupField result "zones").bind Json.asArr with
    | some zonesData => .ok (zonesData.filterMap zoneOfJson)
    | none => .error (.decodeError "unexpected response format: zones field not found or not an array")
  | .null => .error (.decodeError "unexpected response format: zones field not found or not an array")
  | _ => .error (.decodeError "json: cannot unmarshal value into map")

/-- Decode phase of `GetRecords` after a 200 response; same two-tier
discipline as `parseZonesDoc` with the `records` key. -/
def parseRecordsDoc : Json → Except ClientError (List Record)
  | .obj result =>
    match (lookupField result "records").bind Json.asArr with
    | some recordsData => .ok (recordsData.filterMap recordOfJson)
    | none => .error (.decodeError "unexpected response format: records field not found or not an array")
  | .null => .error (.decodeError "unexpected response format: records field not found or not an array")
  | _ => .error (.decodeError "json: cannot unmarshal value into map")

/-- Decode phase of `CreateRecord`/`UpdateRecord` after a success status:
require a `record` key holding an object, extracted leniently. -/
def parseRecordObjDoc : Json → Except ClientError Record
  | .obj result =>
    match (lookupField result "record").bind Json.asObj with
    | some recordData => .ok (recordOfFields recordData)
    | none => .error (.decodeError "unexpected response format: record field not found or not an object")
  | .null => .error (.decodeError "unexpected response format: record field not found or not an object")
  | _ => .error (.decodeError "json: cannot unmarshal value into map")

/-- `GetZones` from `pkg/api`, as a function of the provider's response:
any status other than 200 is an API error carrying the raw body, then the
body is decoded as in `parseZonesDoc`. -/
def GetZones (resp : HttpResponse) : Except ClientError (List Zone) :=
  if resp.statusCode ≠ 200 then .error (.apiError resp.rawBody resp.statusCode)
  else
    match resp.jsonBody with
    | none => .error (.decodeError "invalid JSON")
    | some doc => parseZonesDoc doc

/-- `GetRecords` from `pkg/api`, as a function of the provider's response. -/
def GetRecords (resp : HttpResponse) : Except ClientError (List Record) :=
  if resp.statusCode ≠ 200 then .error (.apiError resp.rawBody resp.statusCode)
  else
    match resp.jsonBody with
    | none => .error (.decodeError "invalid JSON")
    | some doc => parseRecordsDoc doc

/-- Go `json.Marshal` applied to a `Record`, following the struct tags:
fields appear in declaration order; `id`, `ttl`, `created`, `modified`
carry `omitempty` and are dropped at their zero value. -/
def marshalRecordFields (r : Record) : List (String × Json) :=
  (if r.ID = "" then [] else [("id", Json.str r.ID)])
    ++ [("type", Json.str r.Type'), ("name", Json.str r.Name), ("value", Json.str r.Value)]
    ++ (if r.TTL = 0 then [] else [("ttl", Json.num (r.TTL : ℚ))])
    ++ [("zone_id", Json.str r.ZoneID)]
    ++ (if r.Created = "" then [] else [("created", Json.str r.Created)])
    ++ (if r.Modified = "" then [] else [("modified", Json.str r.Modified)])

/-- Request built by `CreateRecord`: POST to the records endpoint with the
marshalled record as body. -/
def createRecordRequest (record : Record) : HttpRequest :=
  { method := "POST", url := baseURL ++ "/records"
    body := some (.obj (marshalRecordFields record)) }

/-- Request built by `UpdateRecord`: PUT to `records/{id}` with the
marshalled record as body. -/
def updateRecordRequest (record : Record) : HttpRequest :=
  { method := "PUT", url := baseURL ++ "/records/" ++ record.ID
    body := some (.obj (marshalRecordFields record)) }

/-- Request built by `DeleteRecord`: DELETE to `records/{id}` with no body. -/
def deleteRecordRequest (recordID : String) : HttpRequest :=
  { method := "DELETE", url := baseURL ++ "/records/" ++ recordID }

/-- Response handling of `CreateRecord`: a status other than 200 or 201 is
an API error carrying the raw body and status; on success the body is
decoded and the nested `record` object extracted. -/
def CreateRecord (resp : HttpResponse) : Except ClientError Record :=
  if resp.statusCode ≠ 200 ∧ resp.statusCode ≠ 201 then
    .error (.apiError resp.rawBody resp.statusCode)
  else
    match resp.jsonBody with
    | none => .error (.decodeError "invalid JSON")
    | some doc => parseRecordObjDoc doc

/-- Response handling of `UpdateRecord`: only status 200 is success. -/
def UpdateRecord (resp : HttpResponse) : Except ClientError Record :=
  if resp.statusCode ≠ 200 then
    .error (.apiError resp.rawBody resp.statusCode)
  else
    match resp.jsonBody with
    | none => .error (.decodeError "invalid JSON")
    | some doc => parseRecordObjDoc doc

/-- Response handling of `DeleteRecord`: status 200 or 204 is success,
anything else is an API error carrying the raw body and status. -/
def DeleteRecord (resp : HttpResponse) : Except ClientError Unit :=
  if resp.statusCode ≠ 200 ∧ resp.statusCode ≠ 204 then
    .error (.apiError resp.rawBody resp.statusCode)
  else .ok ()

/-- Classifier used in the theorems: the body/status pair when the result
is an `apiError`, `none` otherwise (success or any other error kind). -/
def apiErrorInfo {α : Type} : Except ClientError α → Option (String × Nat)
  | .error (.apiError body status) => some (body, status)
  | _ => none

/-- Go `strings.TrimSuffix(s, ".")` on the character list: removes one
trailing dot when present, otherwise leaves the list unchanged. -/
def trimDotSuffixChars (l : List Char) : List Char :=
  if l.getLast? = some '.' then l.dropLast else l

/-- Go `strings.ToLower(strings.TrimSuffix(s, "."))`, the normalization
used by the name phase of `resolveZoneID` and by `GetZoneIDByName`.
Go lowercases all Unicode letters; every claim concerns ASCII letters,
on which `Char.toLower` agrees with Go. -/
def normalizeZoneName (s : String) : String :=
  ⟨(trimDotSuffixChars s.data).map Char.toLower⟩

def resolveAttemptLine (input : String) : String :=
  "Attempting to resolve '" ++ input ++ "' as a zone name..."

def foundIDLine (z : Zone) : String :=
  "Found exact match for zone ID: " ++ z.ID ++ " (Name: " ++ z.Name ++ ")"

def foundNameLine (z : Zone) : String :=
  "Found zone with name '" ++ z.Name ++ "', ID: " ++ z.ID

def noMatchLine (input : String) : String :=
  "Could not find any zone matching '" ++ input ++ "'"

/-- Diagnostic line printed for each available zone on the resolver's
failure path. -/
def zoneListingLine (z : Zone) : String :=
  "- " ++ z.Name ++ " (ID: " ++ z.ID ++ ")"

def notFoundMsg (input : String) : String :=
  "could not find zone with ID or name '" ++ input ++ "'"

/-- `resolveZoneID` from `record_cmd.go`, after `GetZones` has succeeded
with `zones`: first scan for a zone whose raw `ID` equals the input
byte-for-byte, then scan for a zone whose normalized name equals the
normalized input, else fail.  The second component collects the lines the
Go code prints with `fmt.Printf`/`fmt.Println`, in order. -/
def resolveZoneIDLog (zones : List Zone) (zoneIDOrName : String) :
    Except ClientError String × List String :=
  match zones.find? (fun z => z.ID == zoneIDOrName) with
  | some z => (.ok z.ID, [resolveAttemptLine zoneIDOrName, foundIDLine z])
  | none =>
    let normalizedInput := normalizeZoneName zoneIDOrName
    match zones.find? (fun z => normalizeZoneName z.Name == normalizedInput) with
    | some z => (.ok z.ID, [resolveAttemptLine zoneIDOrName, foundNameLine z])
    | none =>
      (.error (.notFound (notFoundMsg zoneIDOrName)),
        [resolveAttemptLine zoneIDOrName, noMatchLine zoneIDOrName, "Available zones:"]
          ++ zones.map zoneListingLine)

/-- Result component of `resolveZoneID`. -/
def resolveZoneID (zones : List Zone) (zoneIDOrName : String) :
    Except ClientError String :=
  (resolveZoneIDLog zones zoneIDOrName).1

/-- TTL column of the `record list` command: `strconv.Itoa(record.TTL)`
replaced by `"default"` when the TTL is zero. -/
def renderTTL (record : Record) : String :=
  let ttl := toString record.TTL
  if record.TTL = 0 then "default" else ttl

/-- One row of the `record list` table: ID, NAME, TYPE, VALUE, TTL. -/
def recordListRow (record : Record) : List String :=
  [record.ID, record.Name, record.Type', record.Value, renderTTL record]

/-- Payload construction of the `record update` command: start from the
record id and resolved zone id, then set only the fields whose flag was
provided (non-empty string flags; TTL only when the flag was changed). -/
def recordUpdatePayload (recordID zoneID name recordType value : String)
    (ttlChanged : Bool) (ttl : Int) : Record :=
  let record : Record := { ID := recordID, ZoneID := zoneID }
  let record := if name ≠ "" then { record with Name := name } else record
  let record := if recordType ≠ "" then { record with Type' := recordType } else record
  let record := if value ≠ "" then { record with Value := value } else record
  let record := if ttlChanged then { record with TTL := ttl } else record
  record

/-- Outcome of `viper.ReadInConfig`: success, a typed
`ConfigFileNotFoundError`, or any other error (in particular a config
file that exists but is not parseable). -/
inductive ReadInConfigOutcome where
  | success
  | fileNotFoundTyped
  | otherError
  deriving DecidableEq

/-- Environment of `LoadConfig`: the result of `os.UserHomeDir`, whether
the config directory exists or could be created, the outcome of
`viper.ReadInConfig`, the `api_token` value parsed from the file when the
read succeeded, and the `HETZNER_DNS_API_TOKEN` environment variable. -/
structure ConfigEnv where
  homeDir : Option String
  mkdirOk : Bool
  readOutcome : ReadInConfigOutcome
  fileToken : Option String
  envToken : Option String

/-- Loaded configuration (`Config` struct from `pkg/config`). -/
structure Config where
  APIToken : String
  deriving DecidableEq

/-- `LoadConfig` from `pkg/config`: fails when the home directory cannot
be determined or the config directory cannot be created; the
`viper.ReadInConfig` error branch only prints a notice and falls through
regardless of the kind of error, after which `viper.GetString` resolves
the token with precedence environment variable, then file value (only
when the read succeeded), then the default `""`. -/
def LoadConfig (env : ConfigEnv) : Except String Config :=
  match env.homeDir with
  | none => .error "error getting home directory"
  | some _ =>
    if env.mkdirOk then
      let fileValue := (if env.readOutcome = .success then env.fileToken else none).getD ""
      .ok { APIToken := env.envToken.getD fileValue }
    else .error "error creating config directory"

/-- Characters equal up to ASCII letter case: either identical, or an
upper/lower-case pair of the same basic latin letter (code points
differing by 32, the upper one in 65..90). -/
def asciiCaseEqChar (a b : Char) : Prop :=
  a = b
    ∨ (a.toNat + 32 = b.toNat ∧ 65 ≤ a.toNat ∧ a.toNat ≤ 90)
    ∨ (b.toNat + 32 = a.toNat ∧ 65 ≤ b.toNat ∧ b.toNat ≤ 90)

instance (a b : Char) : Decidable (asciiCaseEqChar a b) := by
  unfold asciiCaseEqChar; infer_instance

/-- Character lists equal up to ASCII letter case, position by position. -/
def caseEqCore (u v : List Char) : Prop :=
  u.length = v.length ∧ ∀ p ∈ u.zip v, asciiCaseEqChar p.1 p.2

instance (u v : List Char) : Decidable (caseEqCore u v) := by
  unfold caseEqCore; infer_instance

/-- The claim's relation, formalized from the spec's words: two strings
differ only by ASCII letter case and/or the presence of a single trailing
dot when each is a dotless core, or such a core followed by one `'.'`,
and the cores agree up to ASCII letter case. -/
def caseDotEquiv (s t : String) : Prop :=
  ∃ u v : List Char, caseEqCore u v
    ∧ u.getLast? ≠ some '.' ∧ v.getLast? ≠ some '.'
    ∧ (s.data = u ∨ s.data = u ++ ['.'])
    ∧ (t.data = v ∨ t.data = v ++ ['.'])

/-! Helper lemmas shared by the claim theorems. -/

theorem toLower_eq_of_asciiCaseEqChar (a b : Char) (h : asciiCaseEqChar a b) :
    a.toLower = b.toLower := by
  rcases h with rfl | ⟨h32, h65, h90⟩ | ⟨h32, h65, h90⟩
  · rfl
  · have hb : b = Char.ofNat (a.toNat + 32) := by rw [h32]; exact (Char.ofNat_toNat b).symm
    unfold Char.toLower
    rw [if_pos ⟨h65, h90⟩, if_neg (by omega : ¬(b.toNat ≥ 65 ∧ b.toNat ≤ 90))]
    exact hb.symm
  · have ha : a = Char.ofNat (b.toNat + 32) := by rw [h32]; exact (Char.ofNat_toNat a).symm
    unfold Char.toLower
    rw [if_neg (by omega : ¬(a.toNat ≥ 65 ∧ a.toNat ≤ 90)), if_pos ⟨h65, h90⟩]
    exact ha

theorem map_toLower_eq_of_caseEqCore :
    ∀ u v : List Char, caseEqCore u v → u.map Char.toLower = v.map Char.toLower := by
  intro u
  induction u with
  | nil =>
    rintro v ⟨hlen, _⟩
    cases v with
    | nil => rfl
    | cons b v => simp at hlen
  | cons a u ih =>
    rintro v ⟨hlen, hall⟩
    cases v with
    | nil => simp at hlen
    | cons b v =>
      simp only [List.map_cons, List.cons.injEq]
      refine ⟨toLower_eq_of_asciiCaseEqChar a b (hall (a, b) ?_), ih v ⟨?_, ?_⟩⟩
      · simp [List.zip_cons_cons]
      · simpa using hlen
      · intro p hp
        exact hall p (by simp [List.zip_cons_cons, hp])

theorem trimDot_of_core (u : List Char) (hu : u.getLast? ≠ some '.')
    (l : List Char) (hl : l = u ∨ l = u ++ ['.']) : trimDotSuffixChars l = u := by
  rcases hl with rfl | rfl
  · unfold trimDotSuffixChars
    rw [if_neg hu]
  · unfold trimDotSuffixChars
    rw [if_pos (List.getLast?_concat u)]
    exact List.dropLast_concat

theorem normalize_eq_of_caseDotEquiv (s t : String) (h : caseDotEquiv s t) :
    normalizeZoneName s = normalizeZoneName t := by
  obtain ⟨u, v, hc, hu, hv, hs, ht⟩ := h
  unfold normalizeZoneName
  rw [trimDot_of_core u hu s.data hs, trimDot_of_core v hv t.data ht,
    map_toLower_eq_of_caseEqCore u v hc]

theorem apiErrorInfo_parseRecordObjDoc (doc : Json) :
    apiErrorInfo (parseRecordObjDoc doc) = none := by
  cases doc with
  | obj fields =>
    rcases h : (lookupField fields "record").bind Json.asObj with _ | m <;>
      simp [parseRecordObjDoc, h, apiErrorInfo]
  | null => rfl
  | bool b => rfl
  | num q => rfl
  | str s => rfl
  | arr elems => rfl

/-! Claim theorems. -/

/-- C1: for every zone list and input, `resolveZoneID` first scans all
zones in provider-returned order for a zone whose raw id is byte-for-byte
equal to the input and returns that zone's id (hence the input itself);
only if no id matches does it compare normalized names, returning the
first zone in order whose normalized name equals the normalized input.
Normalization is never applied in the id phase, so an input equal to some
zone's raw id resolves as that id even when another zone's normalized
name equals the normalized input. -/
theorem resolveZoneID_id_phase_first (zones : List Zone) (input : String) :
    ((∃ z ∈ zones, z.ID = input) → resolveZoneID zones input = .ok input)
    ∧ (∀ pre z post, zones = pre ++ z :: post →
        (∀ y ∈ zones, y.ID ≠ input) →
        (∀ y ∈ pre, normalizeZoneName y.Name ≠ normalizeZoneName input) →
        normalizeZoneName z.Name = normalizeZoneName input →
        resolveZoneID zones input = .ok z.ID) := by
  constructor
  · rintro ⟨z, hz, hid⟩
    have hsome : (zones.find? (fun y => y.ID == input)).isSome :=
      List.find?_isSome.mpr ⟨z, hz, by simp [hid]⟩
    obtain ⟨z', hz'⟩ := Option.isSome_iff_exists.mp hsome
    have hid' : z'.ID = input := by simpa using List.find?_some hz'
    simp [resolveZoneID, resolveZoneIDLog, hz', hid']
  · rintro pre z post rfl hid hpre hz
    have hnone : ((pre ++ z :: post).find? (fun y => y.ID == input)) = none :=
      List.find?_eq_none.mpr (by intro y hy; simpa using hid y hy)
    have hfind : ((pre ++ z :: post).find?
        (fun y => normalizeZoneName y.Name == normalizeZoneName input)) = some z := by
      rw [List.find?_append]
      have h1 : pre.find? (fun y => normalizeZoneName y.Name == normalizeZoneName input) = none :=
        List.find?_eq_none.mpr (by intro y hy; simpa using hpre y hy)
      rw [h1]
      simp [List.find?_cons, hz]
    simp [resolveZoneID, resolveZoneIDLog, hnone, hfind]

def zonesIdCollision : List Zone :=
  [{ ID := "zoneA", Name := "abc" }, { ID := "abc", Name := "other.org" }]

def zonesNamePhase : List Zone :=
  [{ ID := "z1", Name := "foo.org" }, { ID := "z2", Name := "example.com." }]

/-- Witness for C1: the input `"abc"` equals the second zone's raw id and
resolves as that id even though the first zone's name is `"abc"`; and
with no id match, the first normalized-name match wins. -/
theorem resolveZoneID_id_phase_first_witness :
    resolveZoneID zonesIdCollision "abc" = .ok "abc"
    ∧ resolveZoneID zonesNamePhase "EXAMPLE.com" = .ok "z2" :=
  ⟨(resolveZoneID_id_phase_first zonesIdCollision "abc").1 (by decide),
   (resolveZoneID_id_phase_first zonesNamePhase "EXAMPLE.com").2
     [{ ID := "z1", Name := "foo.org" }] { ID := "z2", Name := "example.com." } []
     rfl (by decide) (by decide) (by decide)⟩

/-- C2: when the input matches no zone under the exact-id rule nor the
normalized-name rule, `resolveZoneID` fails with the not-found error
(hence never returns any identifier, in particular not an empty one, as a
success result), and the failure path's printed diagnostic enumerates a
line naming every available zone. -/
theorem resolveZoneID_no_match_not_found (zones : List Zone) (input : String)
    (hid : ∀ z ∈ zones, z.ID ≠ input)
    (hname : ∀ z ∈ zones, normalizeZoneName z.Name ≠ normalizeZoneName input) :
    resolveZoneIDLog zones input =
      (.error (.notFound (notFoundMsg input)),
        [resolveAttemptLine input, noMatchLine input, "Available zones:"]
          ++ zones.map zoneListingLine)
    ∧ (∀ s, resolveZoneID zones input ≠ .ok s)
    ∧ (∀ z ∈ zones, zoneListingLine z ∈ (resolveZoneIDLog zones input).2) := by
  have hnone1 : zones.find? (fun y => y.ID == input) = none :=
    List.find?_eq_none.mpr (by intro y hy; simpa using hid y hy)
  have hnone2 : zones.find? (fun y => normalizeZoneName y.Name == normalizeZoneName input) = none :=
    List.find?_eq_none.mpr (by intro y hy; simpa using hname y hy)
  have hlog : resolveZoneIDLog zones input =
      (.error (.notFound (notFoundMsg input)),
        [resolveAttemptLine input, noMatchLine input, "Available zones:"]
          ++ zones.map zoneListingLine) := by
    simp [resolveZoneIDLog, hnone1, hnone2]
  refine ⟨hlog, ?_, ?_⟩
  · intro s
    simp [resolveZoneID, hlog]
  · intro z hz
    rw [hlog]
    exact List.mem_append_right _ (List.mem_map_of_mem zoneListingLine hz)

def zoneExampleCom : Zone := { ID := "z1", Name := "example.com", TTL := 3600, RecordsCount := 5 }

/-- Witness for C2: a single-zone list and the non-matching input
`"missing.org"`. -/
theorem resolveZoneID_no_match_not_found_witness :
    resolveZoneID [zoneExampleCom] "missing.org"
      = .error (.notFound (notFoundMsg "missing.org"))
    ∧ zoneListingLine zoneExampleCom ∈ (resolveZoneIDLog [zoneExampleCom] "missing.org").2 := by
  have h := resolveZoneID_no_match_not_found [zoneExampleCom] "missing.org"
    (by decide) (by decide)
  exact ⟨by simp [resolveZoneID, h.1], h.2.2 zoneExampleCom (by decide)⟩

/-- C4: two strings that differ only by ASCII letter case and/or the
presence of a single trailing dot are equivalent in the name-match phase:
if no zone id equals the input and some zone's name is the other string,
resolution succeeds with a zone whose normalized name equals the
normalized input. -/
theorem name_phase_case_dot_insensitive (s t : String) (zones : List Zone) (z : Zone)
    (heq : caseDotEquiv s t) (hz : z ∈ zones) (hname : z.Name = t)
    (hid : ∀ y ∈ zones, y.ID ≠ s) :
    ∃ z', z' ∈ zones ∧ resolveZoneID zones s = .ok z'.ID
      ∧ normalizeZoneName z'.Name = normalizeZoneName t := by
  have hnorm : normalizeZoneName s = normalizeZoneName t := normalize_eq_of_caseDotEquiv s t heq
  have hnone : zones.find? (fun y => y.ID == s) = none :=
    List.find?_eq_none.mpr (by intro y hy; simpa using hid y hy)
  have hsome : (zones.find? (fun y => normalizeZoneName y.Name == normalizeZoneName s)).isSome :=
    List.find?_isSome.mpr ⟨z, hz, by simp [hname, hnorm]⟩
  obtain ⟨z', hz'⟩ := Option.isSome_iff_exists.mp hsome
  refine ⟨z', List.mem_of_find?_eq_some hz', ?_, ?_⟩
  · simp [resolveZoneID, resolveZoneIDLog, hnone, hz']
  · rw [← hnorm]
    simpa using List.find?_some hz'

def zoneLowerName : Zone := { ID := "idlow", Name := "example.com" }

def zoneUpperName : Zone := { ID := "idup", Name := "EXAMPLE.COM." }

/-- Witness for C4: resolving `"EXAMPLE.COM."` against a zone named
`"example.com"` succeeds, and symmetrically resolving `"example.com"`
against a zone whose stored name is `"EXAMPLE.COM."`. -/
theorem name_phase_case_dot_insensitive_witness :
    (∃ z', z' ∈ [zoneLowerName] ∧ resolveZoneID [zoneLowerName] "EXAMPLE.COM." = .ok z'.ID
      ∧ normalizeZoneName z'.Name = normalizeZoneName "example.com")
    ∧ (∃ z', z' ∈ [zoneUpperName] ∧ resolveZoneID [zoneUpperName] "example.com" = .ok z'.ID
      ∧ normalizeZoneName z'.Name = normalizeZoneName "EXAMPLE.COM.") :=
  ⟨name_phase_case_dot_insensitive "EXAMPLE.COM." "example.com" [zoneLowerName] zoneLowerName
      ⟨"EXAMPLE.COM".data, "example.com".data, by decide, by decide, by decide,
        Or.inr (by decide), Or.inl (by decide)⟩
      (by decide) rfl (by decide),
   name_phase_case_dot_insensitive "example.com" "EXAMPLE.COM." [zoneUpperName] zoneUpperName
      ⟨"example.com".data, "EXAMPLE.COM".data, by decide, by decide, by decide,
        Or.inl (by decide), Or.inr (by decide)⟩
      (by decide) rfl (by decide)⟩

/-- C3: two-tier decode strictness of the list operations.  A fetched
document whose `records` (resp. `zones`) key is absent or not an array
fails with a decode error; when the key holds an array, the call
succeeds, skipping the elements that are not objects and extracting every
object element even when individual fields are missing (a record object
without a `value` key yields an entry whose `value` is the zero value). -/
theorem list_decode_two_tier (fields : List (String × Json)) (xs : List Json) :
    ((lookupField fields "records").bind Json.asArr = none →
      parseRecordsDoc (.obj fields)
        = .error (.decodeError "unexpected response format: records field not found or not an array"))
    ∧ (lookupField fields "records" = some (.arr xs) →
      parseRecordsDoc (.obj fields) = .ok (xs.filterMap recordOfJson))
    ∧ (∀ j ∈ xs, Json.asObj j = none → recordOfJson j = none)
    ∧ (∀ m, recordOfJson (.obj m) = some (recordOfFields m))
    ∧ (∀ m, lookupField m "value" = none → (recordOfFields m).Value = "")
    ∧ ((lookupField fields "zones").bind Json.asArr = none →
      parseZonesDoc (.obj fields)
        = .error (.decodeError "unexpected response format: zones field not found or not an array"))
    ∧ (lookupField fields "zones" = some (.arr xs) →
      parseZonesDoc (.obj fields) = .ok (xs.filterMap zoneOfJson))
    ∧ (∀ j ∈ xs, Json.asObj j = none → zoneOfJson j = none)
    ∧ (∀ doc body, GetRecords ⟨200, body, some doc⟩ = parseRecordsDoc doc)
    ∧ (∀ doc body, GetZones ⟨200, body, some doc⟩ = parseZonesDoc doc) := by
  refine ⟨?_, ?_, ?_, ?_, ?_, ?_, ?_, ?_, ?_, ?_⟩
  · intro h
    simp [parseRecordsDoc, h]
  · intro h
    simp [parseRecordsDoc, h, Json.asArr]
  · intro j _ h
    cases j <;> simp_all [Json.asObj, recordOfJson]
  · intro m
    rfl
  · intro m h
    simp [recordOfFields, strField, h]
  · intro h
    simp [parseZonesDoc, h]
  · intro h
    simp [parseZonesDoc, h, Json.asArr]
  · intro j _ h
    cases j <;> simp_all [Json.asObj, zoneOfJson]
  · intro doc body
    rfl
  · intro doc body
    rfl

def goodRecFields : List (String × Json) :=
  [("id", .str "r1"), ("type", .str "A"), ("name", .str "www"),
   ("value", .str "1.2.3.4"), ("zone_id", .str "z1")]

def partialRecFields : List (String × Json) :=
  [("id", .str "r2"), ("type", .str "TXT"), ("name", .str "note"), ("zone_id", .str "z1")]

def recordsElems : List Json := [.obj goodRecFields, .obj partialRecFields, .str "junk"]

def recordsDocFields : List (String × Json) := [("records", .arr recordsElems)]

def noRecordsKeyFields : List (String × Json) := [("meta", .obj [])]

/-- Witness for C3: a document with one well-formed record object, one
object missing `value`, and one non-object element yields exactly two
entries, the partial one with a zero-value `value`; a document without a
`records` key fails with the decode error. -/
theorem list_decode_two_tier_witness :
    parseRecordsDoc (.obj recordsDocFields)
      = .ok [recordOfFields goodRecFields, recordOfFields partialRecFields]
    ∧ (recordOfFields partialRecFields).Value = ""
    ∧ (recordOfFields partialRecFields).Name = "note"
    ∧ parseRecordsDoc (.obj noRecordsKeyFields)
      = .error (.decodeError "unexpected response format: records field not found or not an array") := by
  refine ⟨?_, ?_, ?_, ?_⟩
  · exact ((list_decode_two_tier recordsDocFields recordsElems).2.1 rfl).trans (by rfl)
  · exact (list_decode_two_tier recordsDocFields recordsElems).2.2.2.2.1 partialRecFields rfl
  · rfl
  · exact (list_decode_two_tier noRecordsKeyFields []).1 rfl

/-- C5: status-code success conditions for the record mutations, as seen
through the API-error classifier: `CreateRecord` yields an `apiError`
exactly when the status is neither 200 nor 201, `UpdateRecord` exactly
when it is not 200, `DeleteRecord` exactly when it is neither 200 nor
204; in each failing case the error carries the raw response body and the
status code. -/
theorem mutation_status_codes (resp : HttpResponse) :
    (apiErrorInfo (CreateRecord resp)
      = if resp.statusCode = 200 ∨ resp.statusCode = 201 then none
        else some (resp.rawBody, resp.statusCode))
    ∧ (apiErrorInfo (UpdateRecord resp)
      = if resp.statusCode = 200 then none
        else some (resp.rawBody, resp.statusCode))
    ∧ (apiErrorInfo (DeleteRecord resp)
      = if resp.statusCode = 200 ∨ resp.statusCode = 204 then none
        else some (resp.rawBody, resp.statusCode)) := by
  refine ⟨?_, ?_, ?_⟩
  · by_cases h : resp.statusCode = 200 ∨ resp.statusCode = 201
    · have hc : ¬(resp.statusCode ≠ 200 ∧ resp.statusCode ≠ 201) := by tauto
      unfold CreateRecord
      rw [if_neg hc, if_pos h]
      cases resp.jsonBody with
      | none => rfl
      | some doc => exact apiErrorInfo_parseRecordObjDoc doc
    · have hc : resp.statusCode ≠ 200 ∧ resp.statusCode ≠ 201 := by tauto
      unfold CreateRecord
      rw [if_pos hc, if_neg h]
      rfl
  · by_cases h : resp.statusCode = 200
    · unfold UpdateRecord
      rw [if_neg (by simpa using h), if_pos h]
      cases resp.jsonBody with
      | none => rfl
      | some doc => exact apiErrorInfo_parseRecordObjDoc doc
    · unfold UpdateRecord
      rw [if_pos h, if_neg h]
      rfl
  · by_cases h : resp.statusCode = 200 ∨ resp.statusCode = 204
    · have hc : ¬(resp.statusCode ≠ 200 ∧ resp.statusCode ≠ 204) := by tauto
      unfold DeleteRecord
      rw [if_neg hc, if_pos h]
      rfl
    · have hc : resp.statusCode ≠ 200 ∧ resp.statusCode ≠ 204 := by tauto
      unfold DeleteRecord
      rw [if_pos hc, if_neg h]
      rfl

theorem not_mem_of_lookup_eq_none :
    ∀ {l : List (String × Json)} {k : String} {v : Json},
      List.lookup k l = none → (k, v) ∉ l := by
  intro l
  induction l with
  | nil =>
    intro k v _ hm
    exact absurd hm (List.not_mem_nil _)
  | cons p l ih =>
    rintro k v h hm
    obtain ⟨k', v'⟩ := p
    by_cases hb : k = k'
    · subst hb
      simp [List.lookup] at h
    · rcases List.mem_cons.mp hm with heq | hm'
      · exact hb (congrArg Prod.fst heq)
      · have h' : List.lookup k l = none := by
          simp only [List.lookup] at h
          rw [show (k == k') = false from beq_eq_false_iff_ne.mpr hb] at h
          exact h
        exact ih h' hm'

/-- C7: the body built by `CreateRecord` is the marshalled record, and
`omitempty` drops the `id` key entirely when the record's ID is the empty
string, and the `ttl` key entirely when the TTL is zero. -/
theorem createRecord_body_omits_empty_id_and_zero_ttl (r : Record) :
    (createRecordRequest r).body = some (.obj (marshalRecordFields r))
    ∧ (r.ID = "" → List.lookup "id" (marshalRecordFields r) = none
        ∧ ∀ j, ("id", j) ∉ marshalRecordFields r)
    ∧ (r.TTL = 0 → List.lookup "ttl" (marshalRecordFields r) = none
        ∧ ∀ j, ("ttl", j) ∉ marshalRecordFields r) := by
  refine ⟨rfl, ?_, ?_⟩
  · intro hID
    have hlk : List.lookup "id" (marshalRecordFields r) = none := by
      by_cases hT : r.TTL = 0 <;> by_cases hC : r.Created = "" <;> by_cases hM : r.Modified = "" <;>
        simp [marshalRecordFields, hID, hT, hC, hM, List.lookup]
    exact ⟨hlk, fun j => not_mem_of_lookup_eq_none hlk⟩
  · intro hT
    have hlk : List.lookup "ttl" (marshalRecordFields r) = none := by
      by_cases hI : r.ID = "" <;> by_cases hC : r.Created = "" <;> by_cases hM : r.Modified = "" <;>
        simp [marshalRecordFields, hI, hT, hC, hM, List.lookup]
    exact ⟨hlk, fun j => not_mem_of_lookup_eq_none hlk⟩

def createExampleRecord : Record :=
  { Type' := "A", Name := "www", Value := "192.168.1.1", ZoneID := "zone1" }

/-- Witness for C7: a record with empty ID and TTL zero marshals to a
body with no `id` and no `ttl` key. -/
theorem createRecord_body_omits_witness :
    List.lookup "id" (marshalRecordFields createExampleRecord) = none
    ∧ List.lookup "ttl" (marshalRecordFields createExampleRecord) = none :=
  ⟨((createRecord_body_omits_empty_id_and_zero_ttl createExampleRecord).2.1 rfl).1,
   ((createRecord_body_omits_empty_id_and_zero_ttl createExampleRecord).2.2 rfl).1⟩

/-- Example payload of `record update -i r1 -z z1` with no other flags:
only the id and the resolved zone are set. -/
def updExample : Record := recordUpdatePayload "r1" "z1" "" "" "" false 0

/-- Counterexample to C8 as stated: for an update invocation supplying
only the record id and zone, the PUT body does NOT carry the `ttl` field
at its zero value — `omitempty` on the `ttl` tag drops it — even though
the `name` field is carried as the empty string. -/
theorem updateRecord_body_ttl_omitted_cex :
    List.lookup "ttl" (marshalRecordFields updExample) = none
    ∧ ¬(("ttl", Json.num 0) ∈ marshalRecordFields updExample)
    ∧ List.lookup "name" (marshalRecordFields updExample) = some (Json.str "") :=
  ⟨rfl, not_mem_of_lookup_eq_none rfl, rfl⟩

/-- C8 (amended): the update path always serializes the full record
struct as the PUT body; for an invocation supplying only the record id
and zone, the body carries `name`, `type` and `value` at their zero
values (empty strings), while `ttl` (like `id`, `created`, `modified`)
is tagged `omitempty` and is therefore omitted at its zero value rather
than sent as the literal 0. -/
theorem updateRecord_full_struct_amended (recordID zoneID : String) (hid : recordID ≠ "") :
    marshalRecordFields (recordUpdatePayload recordID zoneID "" "" "" false 0)
      = [("id", Json.str recordID), ("type", Json.str ""), ("name", Json.str ""),
         ("value", Json.str ""), ("zone_id", Json.str zoneID)]
    ∧ updateRecordRequest (recordUpdatePayload recordID zoneID "" "" "" false 0)
      = { method := "PUT", url := baseURL ++ "/records/" ++ recordID
          body := some (.obj (marshalRecordFields
            (recordUpdatePayload recordID zoneID "" "" "" false 0))) } := by
  have hpay : recordUpdatePayload recordID zoneID "" "" "" false 0
      = { ID := recordID, ZoneID := zoneID } := by
    simp [recordUpdatePayload]
  refine ⟨?_, ?_⟩
  · rw [hpay]
    simp [marshalRecordFields, hid]
  · rw [updateRecordRequest, hpay]

/-- Witness for C8 (amended) at the concrete invocation `-i r1 -z z1`. -/
theorem updateRecord_full_struct_amended_witness :
    marshalRecordFields (recordUpdatePayload "r1" "z1" "" "" "" false 0)
      = [("id", Json.str "r1"), ("type", Json.str ""), ("name", Json.str ""),
         ("value", Json.str ""), ("zone_id", Json.str "z1")] :=
  (updateRecord_full_struct_amended "r1" "z1" (by decide)).1

/-- C9: the `record list` table renders a TTL of zero as the string
`"default"` and any nonzero TTL as its decimal representation. -/
theorem recordList_ttl_rendering (r : Record) :
    (r.TTL = 0 → recordListRow r = [r.ID, r.Name, r.Type', r.Value, "default"])
    ∧ (r.TTL ≠ 0 → recordListRow r = [r.ID, r.Name, r.Type', r.Value, toString r.TTL]) := by
  constructor
  · intro h
    simp [recordListRow, renderTTL, h]
  · intro h
    simp [recordListRow, renderTTL, h]

/-- Witness for C9: a record with TTL 0 renders `"default"`; one with
TTL 3600 renders `"3600"`. -/
theorem recordList_ttl_rendering_witness :
    recordListRow { ID := "r1", Name := "www", Type' := "A", Value := "1.2.3.4", TTL := 0 }
      = ["r1", "www", "A", "1.2.3.4", "default"]
    ∧ recordListRow { ID := "r2", Name := "mail", Type' := "MX", Value := "10 mx", TTL := 3600 }
      = ["r2", "mail", "MX", "10 mx", "3600"] :=
  ⟨(recordList_ttl_rendering _).1 rfl,
   ((recordList_ttl_rendering _).2 (by decide)).trans (by rfl)⟩

theorem floatToInt_trunc (x : ℚ) :
    floatToInt x = if 0 ≤ x then ⌊x⌋ else ⌈x⌉ := by
  by_cases hx : 0 ≤ x
  · rw [if_pos hx, Rat.floor_def]
    exact Int.tdiv_eq_ediv (Rat.num_nonneg.mpr hx) (Int.natCast_nonneg _)
  · rw [if_neg hx]
    have hx' : 0 ≤ -x := by linarith
    have h1 : ⌊-x⌋ = (-x).num.tdiv (-x).den := by
      rw [Rat.floor_def]
      exact (Int.tdiv_eq_ediv (Rat.num_nonneg.mpr hx') (Int.natCast_nonneg _)).symm
    have h2 : (-x).num.tdiv (-x).den = -(x.num.tdiv x.den) := by
      simp [Int.neg_tdiv]
    have h3 : ⌈x⌉ = -⌊-x⌋ := by
      rw [Int.floor_neg]
      ring
    rw [h3, h1, h2]
    simp [floatToInt]

/-- C10: during lenient decoding, the numeric fields `ttl` and
`records_count` are taken only when the JSON value is a number, in which
case the `float64` is converted by truncation toward zero (equal to the
floor for nonnegative values and the ceiling for negative ones); a
present but non-number value — string, boolean, null, object or array —
silently leaves the field at 0, exactly like an absent field. -/
theorem numeric_fields_trunc_or_zero (m : List (String × Json)) (q : ℚ) :
    (∀ x : ℚ, floatToInt x = if 0 ≤ x then ⌊x⌋ else ⌈x⌉)
    ∧ (lookupField m "ttl" = some (.num q) →
        (zoneOfFields m).TTL = floatToInt q ∧ (recordOfFields m).TTL = floatToInt q)
    ∧ (∀ jv, lookupField m "ttl" = some jv → Json.asNum jv = none →
        (zoneOfFields m).TTL = 0 ∧ (recordOfFields m).TTL = 0)
    ∧ (lookupField m "ttl" = none →
        (zoneOfFields m).TTL = 0 ∧ (recordOfFields m).TTL = 0)
    ∧ (lookupField m "records_count" = some (.num q) →
        (zoneOfFields m).RecordsCount = floatToInt q)
    ∧ (∀ jv, lookupField m "records_count" = some jv → Json.asNum jv = none →
        (zoneOfFields m).RecordsCount = 0) := by
  refine ⟨floatToInt_trunc, ?_, ?_, ?_, ?_, ?_⟩
  · intro h
    constructor <;> simp [zoneOfFields, recordOfFields, numField, h, Json.asNum]
  · intro jv h hnum
    constructor <;> simp [zoneOfFields, recordOfFields, numField, h, hnum]
  · intro h
    constructor <;> simp [zoneOfFields, recordOfFields, numField, h]
  · intro h
    simp [zoneOfFields, numField, h, Json.asNum]
  · intro jv h hnum
    simp [zoneOfFields, numField, h, hnum]

def stringTTLZoneFields : List (String × Json) :=
  [("id", .str "z1"), ("name", .str "example.com"), ("ttl", .str "3600")]

/-- Witness for C10: a zone whose `ttl` arrives as the string `"3600"`
decodes with TTL 0, indistinguishable from an absent `ttl`; a numeric
`ttl` of 7.5 truncates to 7 and one of -7.5 truncates to -7. -/
theorem numeric_fields_trunc_or_zero_witness :
    (zoneOfFields stringTTLZoneFields).TTL = 0
    ∧ (zoneOfFields [("ttl", Json.num (mkRat 15 2))]).TTL = 7
    ∧ (recordOfFields [("ttl", Json.num (mkRat (-15) 2))]).TTL = -7 := by
  refine ⟨?_, ?_, ?_⟩
  · exact ((numeric_fields_trunc_or_zero stringTTLZoneFields 0).2.2.1
      (Json.str "3600") rfl rfl).1
  · exact ((numeric_fields_trunc_or_zero [("ttl", Json.num (mkRat 15 2))] (mkRat 15 2)).2.1
      rfl).1.trans (by decide)
  · exact ((numeric_fields_trunc_or_zero [("ttl", Json.num (mkRat (-15) 2))] (mkRat (-15) 2)).2.1
      rfl).2.trans (by decide)

/-- C6 (divergence witness): `LoadConfig` does fail when the home
directory cannot be determined, and does not fail when the config file is
merely absent; but when `viper.ReadInConfig` fails because the file
exists and is not parseable, the code only prints a notice and still
returns a configuration (with the token resolved from the environment or
the empty default) — it never returns the parse error, contradicting the
claim and the code's own inline comment. -/
theorem loadConfig_unparseable_file_returns_ok :
    LoadConfig ⟨some "/home/user", true, .otherError, none, none⟩ = .ok ⟨""⟩
    ∧ LoadConfig ⟨some "/home/user", true, .otherError, none, some "tok-env"⟩
      = .ok ⟨"tok-env"⟩
    ∧ LoadConfig ⟨none, true, .success, none, none⟩
      = .error "error getting home directory" :=
  ⟨rfl, rfl, rfl⟩

end HetznerDNS
